import Mathlib

/-!
Shallow embedding of the NFL-IQ rating engine
(`src/ratings/team_elo.py` and `src/ratings/player_elo.py`).

Modelling conventions:
* Python floats are modelled as real numbers (`ℝ`).
* A Python dict keyed by an id string is modelled as a function
  `String → Option ℝ` (or `String → Option PlayerInfo`); dict assignment is
  pointwise functional update, so the last write wins, exactly as in CPython.
* The append-only `history` lists are Lean lists, appended at the tail.
* The values read from the configuration singleton (`Config().get(...)`)
  are fields of the store structure; the shipped defaults are provided as
  separate concrete definitions.
-/

namespace NFLIQ

/-- `TeamElo.expected_score` (team_elo.py, line 55):
`1.0 / (1.0 + 10 ** ((rating_b - rating_a) / 400.0))`. -/
noncomputable def expected_score (rating_a rating_b : ℝ) : ℝ :=
  1 / (1 + (10 : ℝ) ^ ((rating_b - rating_a) / 400))

/-- `TeamElo.mov_multiplier` (team_elo.py, line 68): `np.log(abs(margin) + 1)`. -/
noncomputable def mov_multiplier (margin : ℤ) : ℝ :=
  Real.log (|(margin : ℝ)| + 1)

/-- One row of the team `history` ledger: `(season, week, team_id, elo_rating)`
(team_elo.py, lines 138-139). -/
structure TeamRecord where
  season : ℤ
  week : ℤ
  team_id : String
  elo_rating : ℝ

/-- State of a `TeamElo` instance: the four configuration scalars read in
`__init__` (team_elo.py, lines 23-26), the `ratings` dict and the `history`
list. -/
structure TeamElo where
  initial_rating : ℝ
  k_factor : ℝ
  home_advantage : ℝ
  reversion_factor : ℝ
  ratings : String → Option ℝ
  history : List TeamRecord

/-- A freshly constructed `TeamElo()`: empty ratings dict, empty history. -/
def TeamElo.mk0 (initial k homeAdv reversion : ℝ) : TeamElo :=
  ⟨initial, k, homeAdv, reversion, fun _ => none, []⟩

/-- `TeamElo.get_rating` (team_elo.py, line 42):
`self.ratings.get(team_id, self.initial_rating)`. -/
def TeamElo.get_rating (st : TeamElo) (team_id : String) : ℝ :=
  (st.ratings team_id).getD st.initial_rating

/-- `TeamElo.initialize_ratings` (team_elo.py, lines 34-38):
`for team_id in teams: self.ratings[team_id] = self.initial_rating`. -/
def TeamElo.initialize_ratings (st : TeamElo) (teams : List String) : TeamElo :=
  teams.foldl
    (fun s team_id =>
      { s with ratings := fun t => if t = team_id then some s.initial_rating else s.ratings t })
    st

/-- `TeamElo.update_ratings` (team_elo.py, lines 70-144). Returns the updated
store together with the returned pair `(new_home_rating, new_away_rating)`. -/
noncomputable def TeamElo.update_ratings (st : TeamElo)
    (home_team away_team : String) (home_score away_score : ℤ)
    (season week : ℤ) (is_playoff : Bool) : TeamElo × ℝ × ℝ :=
  let home_rating := st.get_rating home_team
  let away_rating := st.get_rating away_team
  let home_rating_adj := home_rating + st.home_advantage
  let home_expected := expected_score home_rating_adj away_rating
  let away_expected := 1 - home_expected
  let home_result : ℝ := if home_score > away_score then 1
    else if home_score < away_score then 0 else 0.5
  let away_result : ℝ := if home_score > away_score then 0
    else if home_score < away_score then 1 else 0.5
  let margin := |home_score - away_score|
  let mov_mult := mov_multiplier margin
  let playoff_mult : ℝ := if is_playoff then 1.2 else 1
  let k := st.k_factor * mov_mult * playoff_mult
  let home_change := k * (home_result - home_expected)
  let away_change := k * (away_result - away_expected)
  let new_home_rating := home_rating + home_change
  let new_away_rating := away_rating + away_change
  let ratings1 := fun t => if t = home_team then some new_home_rating else st.ratings t
  let ratings2 := fun t => if t = away_team then some new_away_rating else ratings1 t
  (⟨st.initial_rating, st.k_factor, st.home_advantage, st.reversion_factor,
    ratings2,
    st.history ++ [⟨season, week, home_team, new_home_rating⟩,
                   ⟨season, week, away_team, new_away_rating⟩]⟩,
   new_home_rating, new_away_rating)

/-- `TeamElo.regress_to_mean` (team_elo.py, lines 146-155): every stored rating
becomes `R*(1-f) + BASE*f`. -/
def TeamElo.regress_to_mean (st : TeamElo) : TeamElo :=
  { st with
    ratings := fun t => (st.ratings t).map
      (fun r => r * (1 - st.reversion_factor) + st.initial_rating * st.reversion_factor) }

/-- `TeamElo.get_matchup_probability` (team_elo.py, lines 188-215). -/
noncomputable def TeamElo.get_matchup_probability (st : TeamElo)
    (home_team away_team : String) (neutral_site : Bool) : ℝ × ℝ :=
  let home_rating := st.get_rating home_team
  let away_rating := st.get_rating away_team
  let home_rating_adj := if neutral_site then home_rating else home_rating + st.home_advantage
  let home_prob := expected_score home_rating_adj away_rating
  (home_prob, 1 - home_prob)

/-- `TeamElo.load_history` restores the latest rating per team from a
persisted history table (team_elo.py, lines 171-186). Pandas
`df.groupby('team_id').last()` keeps, for every team id, the values of the
last row of that team in file order; `lastTeamRecord` computes exactly that
row. -/
def lastTeamRecord (hist : List TeamRecord) (t : String) : Option TeamRecord :=
  hist.foldl (fun acc r => if r.team_id = t then some r else acc) none

/-- `TeamElo.load_history` (team_elo.py, lines 171-186): overwrite the live
dict with the last recorded rating of every team present in the table, and
replace the in-memory history with the table. -/
def TeamElo.load_history (st : TeamElo) (hist : List TeamRecord) : TeamElo :=
  { st with
    ratings := fun t =>
      match lastTeamRecord hist t with
      | some r => some r.elo_rating
      | none => st.ratings t,
    history := hist }

/-- Player metadata entry (player_elo.py, lines 43-47):
`{'position': ..., 'games': ..., 'last_update_week': ...}`. -/
structure PlayerInfo where
  position : String
  games : ℕ
  last_update_week : Option (ℤ × ℤ)

/-- One row of the player `history` ledger:
`(season, week, player_id, position, elo_rating)` (player_elo.py, line 117). -/
structure PlayerRecord where
  season : ℤ
  week : ℤ
  player_id : String
  position : String
  elo_rating : ℝ

/-- State of a `PlayerElo` instance (player_elo.py, lines 19-37). -/
structure PlayerElo where
  initial_rating : ℝ
  k_factors : String → Option ℝ
  reversion_factor : ℝ
  ratings : String → Option ℝ
  player_info : String → Option PlayerInfo
  history : List PlayerRecord

/-- The shipped default position K-factor table (player_elo.py, lines 24-27). -/
def default_k_factors : String → Option ℝ := fun pos =>
  if pos = "QB" then some 32
  else if pos = "RB" then some 20
  else if pos = "WR" then some 20
  else if pos = "TE" then some 18
  else if pos = "OL" then some 15
  else if pos = "DL" then some 15
  else if pos = "LB" then some 18
  else if pos = "CB" then some 20
  else if pos = "S" then some 18
  else none

/-- A freshly constructed `PlayerElo()`: empty dicts, empty history. -/
def PlayerElo.mk0 (initial : ℝ) (ks : String → Option ℝ) (reversion : ℝ) : PlayerElo :=
  ⟨initial, ks, reversion, fun _ => none, fun _ => none, []⟩

/-- `PlayerElo.get_rating` (player_elo.py, line 51). -/
def PlayerElo.get_rating (st : PlayerElo) (player_id : String) : ℝ :=
  (st.ratings player_id).getD st.initial_rating

/-- `PlayerElo.initialize_player` (player_elo.py, lines 39-47): guarded by
`if player_id not in self.ratings`. -/
def PlayerElo.initialize_player (st : PlayerElo) (player_id position : String) : PlayerElo :=
  match st.ratings player_id with
  | some _ => st
  | none =>
    { st with
      ratings := fun p => if p = player_id then some st.initial_rating else st.ratings p,
      player_info := fun p =>
        if p = player_id then some ⟨position, 0, none⟩ else st.player_info p }

/-- `PlayerElo.get_k_factor` (player_elo.py, lines 53-71): a flat `20.0` for a
player absent from `player_info`, otherwise the position's base K-factor
(default 20) scaled by `snap_share`. -/
def PlayerElo.get_k_factor (st : PlayerElo) (player_id : String) (snap_share : ℝ) : ℝ :=
  match st.player_info player_id with
  | none => 20
  | some info => ((st.k_factors info.position).getD 20) * snap_share

/-- `PlayerElo.update_rating` (player_elo.py, lines 73-119). Returns the
updated store with the returned new rating. -/
noncomputable def PlayerElo.update_rating (st : PlayerElo) (player_id : String)
    (opponent_strength performance_score snap_share : ℝ)
    (season week : ℤ) : PlayerElo × ℝ :=
  let current_rating := st.get_rating player_id
  let k := st.get_k_factor player_id snap_share
  let expected := 1 / (1 + (10 : ℝ) ^ ((opponent_strength - current_rating) / 400))
  let change := k * (performance_score - expected)
  let new_rating := current_rating + change
  let ratings1 := fun p => if p = player_id then some new_rating else st.ratings p
  let player_info1 :=
    match st.player_info player_id with
    | some info => fun p =>
        if p = player_id then
          some ⟨info.position, info.games + 1, some (season, week)⟩
        else st.player_info p
    | none => st.player_info
  let position :=
    match st.player_info player_id with
    | some info => info.position
    | none => "UNKNOWN"
  (⟨st.initial_rating, st.k_factors, st.reversion_factor, ratings1, player_info1,
    st.history ++ [⟨season, week, player_id, position, new_rating⟩]⟩,
   new_rating)

/-- `PlayerElo.regress_inactive_players` (player_elo.py, lines 121-145):
iterates `player_info`; skips players never updated; computes weeks inactive
(cross-season via `*18` only when `current_season > last_season`) and pulls
the rating toward base when `weeks_inactive >= 4`. -/
def PlayerElo.regress_inactive_players (st : PlayerElo)
    (current_season current_week : ℤ) : PlayerElo :=
  { st with
    ratings := fun p =>
      match st.player_info p with
      | none => st.ratings p
      | some info =>
        match info.last_update_week with
        | none => st.ratings p
        | some (last_season, last_week) =>
          let weeks_inactive :=
            if current_season > last_season then
              (current_season - last_season) * 18 + current_week - last_week
            else current_week - last_week
          if weeks_inactive ≥ 4 then
            (st.ratings p).map (fun r =>
              r * (1 - st.reversion_factor) + st.initial_rating * st.reversion_factor)
          else st.ratings p }

/-- The hard-coded position weight table of `compute_team_adjustment`
(player_elo.py, lines 158-168), in dict insertion order; the weights sum
to 1.0. -/
def position_weights : List (String × ℝ) :=
  [("QB", 0.25), ("RB", 0.08), ("WR", 0.12), ("TE", 0.05), ("OL", 0.15),
   ("DL", 0.12), ("LB", 0.10), ("CB", 0.08), ("S", 0.05)]

/-- One row of the `roster_data` frame passed to `compute_team_adjustment`
(player_elo.py, line 152). -/
structure RosterRow where
  player_id : String
  position : String
  snap_share : ℝ

/-- `PlayerElo.compute_team_adjustment` (player_elo.py, lines 147-190):
per position with a nonempty roster slice, add
`(Σ rating*snap_share − initial_rating) * weight`; scale by `0.1` and clip
to `[-100, 100]`. -/
def PlayerElo.compute_team_adjustment (st : PlayerElo)
    (roster_data : List RosterRow) : ℝ :=
  let total_adjustment := position_weights.foldl
    (fun total pw =>
      let pos_players := roster_data.filter (fun row => row.position = pw.1)
      if pos_players.length = 0 then total
      else
        let pos_rating :=
          (pos_players.map (fun row => st.get_rating row.player_id * row.snap_share)).sum
        let pos_delta := pos_rating - st.initial_rating
        total + pos_delta * pw.2)
    0
  max (-100) (min (total_adjustment * 0.1) 100)

/-- The team-adjustment formula exactly as the specification words it
(spec §4.2, `team_adjustment`): per position, subtract `len*BASE` — the
number of roster players at the position times the base rating — from the
snap-share-weighted rating sum; weight, sum, scale by `0.1`, clamp. Written
from the spec to be compared against `compute_team_adjustment`. -/
def spec_team_adjustment_claim (st : PlayerElo) (roster_data : List RosterRow) : ℝ :=
  let total := (position_weights.map (fun pw =>
    let entries := roster_data.filter (fun row => row.position = pw.1)
    (((entries.map (fun row => st.get_rating row.player_id * row.snap_share)).sum
       - (entries.length : ℝ) * st.initial_rating) * pw.2))).sum
  max (-100) (min (total * 0.1) 100)

/-- The team-adjustment formula with the correction the code forces: the base
rating is subtracted once per position with a nonempty roster slice, not
`len` times. -/
def spec_team_adjustment_amended (st : PlayerElo) (roster_data : List RosterRow) : ℝ :=
  let total := (position_weights.map (fun pw =>
    let entries := roster_data.filter (fun row => row.position = pw.1)
    if entries.length = 0 then 0
    else
      (((entries.map (fun row => st.get_rating row.player_id * row.snap_share)).sum
         - st.initial_rating) * pw.2))).sum
  max (-100) (min (total * 0.1) 100)

/-- `load_history` for the player store (player_elo.py, lines 205-222):
last table row per player id, as with the team store. -/
def lastPlayerRecord (hist : List PlayerRecord) (p : String) : Option PlayerRecord :=
  hist.foldl (fun acc r => if r.player_id = p then some r else acc) none

/-- `PlayerElo.load_history` (player_elo.py, lines 205-222): rating and
metadata (`games` reset to 0, `last_update_week` from the record) are rebuilt
from the last row per player. -/
def PlayerElo.load_history (st : PlayerElo) (hist : List PlayerRecord) : PlayerElo :=
  { st with
    ratings := fun p =>
      match lastPlayerRecord hist p with
      | some r => some r.elo_rating
      | none => st.ratings p,
    player_info := fun p =>
      match lastPlayerRecord hist p with
      | some r => some ⟨r.position, 0, some (r.season, r.week)⟩
      | none => st.player_info p,
    history := hist }

/-- One call of `TeamElo.update_ratings` described as data, for reasoning
about sequences of updates. -/
structure TeamUpd where
  home_team : String
  away_team : String
  home_score : ℤ
  away_score : ℤ
  season : ℤ
  week : ℤ
  is_playoff : Bool

/-- Apply a sequence of `update_ratings` calls in order. -/
noncomputable def applyTeamUpdates (st : TeamElo) (ops : List TeamUpd) : TeamElo :=
  ops.foldl
    (fun s op =>
      (s.update_ratings op.home_team op.away_team op.home_score op.away_score
        op.season op.week op.is_playoff).1)
    st

/-- One call of `PlayerElo.update_rating` described as data. -/
structure PlayerUpd where
  player_id : String
  opponent_strength : ℝ
  performance_score : ℝ
  snap_share : ℝ
  season : ℤ
  week : ℤ

/-- Apply a sequence of `update_rating` calls in order. -/
noncomputable def applyPlayerUpdates (st : PlayerElo) (ops : List PlayerUpd) : PlayerElo :=
  ops.foldl
    (fun s op =>
      (s.update_rating op.player_id op.opponent_strength op.performance_score
        op.snap_share op.season op.week).1)
    st

/-- One row of the `games_df` frame consumed by `compute_team_elo_historical`
(team_elo.py, lines 218-255); a missing score is `none` (`pd.notna` fails). -/
structure GameRow where
  home_team_id : String
  away_team_id : String
  home_score : Option ℤ
  away_score : Option ℤ
  season : ℤ
  week : ℤ
  game_type : String

/-- The loop state of `compute_team_elo_historical`: the store plus the
`current_season` tracker (initially `None`). -/
structure FeedState where
  elo : TeamElo
  current_season : Option ℤ

/-- One iteration of the loop of `compute_team_elo_historical`
(team_elo.py, lines 239-255): regress at a season change, then update only
when both scores are present (`pd.notna`), then record the game's season. -/
noncomputable def stepGame (st : FeedState) (g : GameRow) : FeedState :=
  let elo1 :=
    match st.current_season with
    | none => st.elo
    | some cs => if g.season ≠ cs then st.elo.regress_to_mean else st.elo
  let elo2 :=
    match g.home_score, g.away_score with
    | some hs, some aw =>
      (elo1.update_ratings g.home_team_id g.away_team_id hs aw g.season g.week
        (g.game_type == "POST")).1
    | _, _ => elo1
  ⟨elo2, some g.season⟩

/-- The whole loop of `compute_team_elo_historical` over an ordered feed. -/
noncomputable def processGames (st : FeedState) (games : List GameRow) : FeedState :=
  games.foldl stepGame st

/-- The shipped configuration defaults for the team store
(team_elo.py, lines 23-26). -/
def defaultTeamStore : TeamElo := TeamElo.mk0 1500 20 50 0.33

/-- A team store holding one rating away from base, used to instantiate
universally quantified theorems at a concrete input. -/
def sampleTeamStore : TeamElo :=
  ⟨1500, 20, 50, 0.33, fun t => if t = "A" then some 1600 else none, []⟩

/-- The shipped configuration defaults for the player store
(player_elo.py, lines 23-28). -/
def freshPlayerStore : PlayerElo := PlayerElo.mk0 1000 default_k_factors 0.25

/-- A player store with one initialized-and-updated player, used to
instantiate universally quantified theorems at a concrete input. -/
def samplePlayerStore : PlayerElo :=
  ⟨1000, default_k_factors, 0.25,
   fun p => if p = "X" then some 1080 else none,
   fun p => if p = "X" then some ⟨"QB", 1, some (2024, 1)⟩ else none,
   []⟩

/-- A roster of two quarterbacks at full snap share, both unseen (so both at
the base rating). -/
def sampleRosterTwoQB : List RosterRow :=
  [⟨"Q1", "QB", 1⟩, ⟨"Q2", "QB", 1⟩]

/-- The loop state of `compute_team_elo_historical` before any game:
`current_season = None`. -/
def initialFeed : FeedState := ⟨defaultTeamStore, none⟩

/-- A fully scored 2023 game. -/
def sampleGameScored : GameRow := ⟨"A", "B", some 27, some 24, 2023, 1, "REG"⟩

/-- A 2024 game whose home score is missing (`NaN` in the frame). -/
def sampleGameMissing : GameRow := ⟨"C", "D", none, some 24, 2024, 1, "REG"⟩

/-- The live team `ratings` dict agrees with the last ledger record of every
team appearing in the ledger — the invariant that makes `load_history`
restore exactly the live ratings. -/
def teamHistInv (st : TeamElo) : Prop :=
  ∀ (t : String) (r : TeamRecord),
    lastTeamRecord st.history t = some r → st.ratings t = some r.elo_rating

/-- The player-store analogue of `teamHistInv`. -/
def playerHistInv (st : PlayerElo) : Prop :=
  ∀ (p : String) (r : PlayerRecord),
    lastPlayerRecord st.history p = some r → st.ratings p = some r.elo_rating

/-- `expected_score a b + expected_score b a = 1`: the logistic Elo
expectations of the two orderings are complementary. -/
lemma expected_score_add_swap (a b : ℝ) :
    expected_score a b + expected_score b a = 1 := by
  unfold expected_score
  have he : ((a - b) / 400 : ℝ) = -((b - a) / 400) := by ring
  rw [he, Real.rpow_neg (by norm_num : (0:ℝ) ≤ 10)]
  have h1 : (0:ℝ) < (10 : ℝ) ^ ((b - a) / 400) :=
    Real.rpow_pos_of_pos (by norm_num) _
  have h2 : (1 : ℝ) + (10 : ℝ) ^ ((b - a) / 400) ≠ 0 := by positivity
  field_simp
  ring

/-- C1 — for every call to `update_ratings` (any teams, scores, season/week,
playoff flag) the two applied deltas sum to exactly zero:
`(new_home - old_home) + (new_away - old_away) = 0`. -/
theorem C1_team_update_zero_sum (st : TeamElo)
    (home_team away_team : String) (home_score away_score : ℤ)
    (season week : ℤ) (is_playoff : Bool) :
    ((st.update_ratings home_team away_team home_score away_score season week is_playoff).2.1
        - st.get_rating home_team)
      + ((st.update_ratings home_team away_team home_score away_score season week is_playoff).2.2
        - st.get_rating away_team) = 0 := by
  simp only [TeamElo.update_ratings]
  split_ifs <;> ring

/-- C9 — under `neutral_site = true` the probabilities returned by
`get_matchup_probability` are complementary and swap-symmetric: the away
probability of `(A, B)` equals the home probability of `(B, A)`, and
`p_home(A,B) + p_home(B,A) = 1`, with no home-advantage term applied. -/
theorem C9_neutral_matchup_symmetry (st : TeamElo) (A B : String) :
    (st.get_matchup_probability A B true).2 = (st.get_matchup_probability B A true).1 ∧
    (st.get_matchup_probability A B true).1 + (st.get_matchup_probability B A true).1 = 1 ∧
    (st.get_matchup_probability A B true).1 + (st.get_matchup_probability A B true).2 = 1 := by
  simp only [TeamElo.get_matchup_probability, Bool.true_eq, if_true, cond_true, ite_true]
  have h := expected_score_add_swap (st.get_rating A) (st.get_rating B)
  refine ⟨by linarith, by linarith, by ring⟩

/-- C8 — one call to `regress_to_mean` with reversion factor `f ∈ (0,1)`
rewrites every stored rating `r` to `r*(1-f) + BASE*f`, which lies strictly
between `r` and the base value when they differ, and equals the base value
when `r` was already the base. -/
theorem C8_regress_to_mean_bounds (st : TeamElo) (t : String) (r : ℝ)
    (hr : st.ratings t = some r)
    (h0 : 0 < st.reversion_factor) (h1 : st.reversion_factor < 1) :
    st.regress_to_mean.ratings t
      = some (r * (1 - st.reversion_factor) + st.initial_rating * st.reversion_factor) ∧
    (r < st.initial_rating →
      r < r * (1 - st.reversion_factor) + st.initial_rating * st.reversion_factor ∧
      r * (1 - st.reversion_factor) + st.initial_rating * st.reversion_factor
        < st.initial_rating) ∧
    (st.initial_rating < r →
      st.initial_rating
        < r * (1 - st.reversion_factor) + st.initial_rating * st.reversion_factor ∧
      r * (1 - st.reversion_factor) + st.initial_rating * st.reversion_factor < r) ∧
    (r = st.initial_rating →
      r * (1 - st.reversion_factor) + st.initial_rating * st.reversion_factor
        = st.initial_rating) := by
  refine ⟨by simp [TeamElo.regress_to_mean, hr], fun h => ⟨?_, ?_⟩, fun h => ⟨?_, ?_⟩, fun h => ?_⟩
  · nlinarith [mul_pos h0 (sub_pos.mpr h)]
  · nlinarith [mul_pos (sub_pos.mpr h1) (sub_pos.mpr h)]
  · nlinarith [mul_pos h0 (sub_pos.mpr h)]
  · nlinarith [mul_pos (sub_pos.mpr h1) (sub_pos.mpr h)]
  · rw [h]; ring

/-- Witness for C8 at the concrete store `sampleTeamStore` (rating 1600,
base 1500, `f = 0.33`): the regressed rating is `1600*0.67 + 1500*0.33`. -/
theorem C8_regress_to_mean_bounds_witness :
    sampleTeamStore.regress_to_mean.ratings "A"
      = some (1600 * (1 - 0.33) + 1500 * 0.33) := by
  have h := (C8_regress_to_mean_bounds sampleTeamStore "A" 1600
    (by simp [sampleTeamStore]) (by norm_num [sampleTeamStore])
    (by norm_num [sampleTeamStore])).1
  simpa [sampleTeamStore] using h

/-- The logistic expectation is strictly below 1. -/
lemma expected_score_lt_one (a b : ℝ) : expected_score a b < 1 := by
  unfold expected_score
  have h1 : (0:ℝ) < (10 : ℝ) ^ ((b - a) / 400) :=
    Real.rpow_pos_of_pos (by norm_num) _
  rw [div_lt_one (by positivity)]
  linarith

/-- `initialize_ratings` alters only the `ratings` dict: the four
configuration scalars and the ledger are untouched. -/
lemma initialize_ratings_config (teams : List String) (st : TeamElo) :
    (st.initialize_ratings teams).initial_rating = st.initial_rating ∧
    (st.initialize_ratings teams).k_factor = st.k_factor ∧
    (st.initialize_ratings teams).home_advantage = st.home_advantage ∧
    (st.initialize_ratings teams).reversion_factor = st.reversion_factor ∧
    (st.initialize_ratings teams).history = st.history := by
  induction teams generalizing st with
  | nil => exact ⟨rfl, rfl, rfl, rfl, rfl⟩
  | cons x xs ih =>
    have step : st.initialize_ratings (x :: xs)
        = TeamElo.initialize_ratings
            { st with ratings := fun u => if u = x then some st.initial_rating
                else st.ratings u } xs := rfl
    rw [step]
    exact ih _

/-- `initialize_ratings` does not touch the dict entry of an unlisted team. -/
lemma initialize_ratings_not_mem (teams : List String) (st : TeamElo) (t : String)
    (h : t ∉ teams) :
    (st.initialize_ratings teams).ratings t = st.ratings t := by
  induction teams generalizing st with
  | nil => rfl
  | cons x xs ih =>
    have hx : t ≠ x := fun hxt => h (hxt ▸ List.mem_cons_self x xs)
    have hxs : t ∉ xs := fun hxt => h (List.mem_cons_of_mem _ hxt)
    have step : st.initialize_ratings (x :: xs)
        = TeamElo.initialize_ratings
            { st with ratings := fun u => if u = x then some st.initial_rating
                else st.ratings u } xs := rfl
    rw [step, ih _ hxs]
    simp [hx]

/-- `initialize_ratings` writes the base rating into every listed team's
dict entry, present or not. -/
lemma initialize_ratings_mem (teams : List String) (st : TeamElo) (t : String)
    (h : t ∈ teams) :
    (st.initialize_ratings teams).ratings t = some st.initial_rating := by
  induction teams generalizing st with
  | nil => cases h
  | cons x xs ih =>
    have step : st.initialize_ratings (x :: xs)
        = TeamElo.initialize_ratings
            { st with ratings := fun u => if u = x then some st.initial_rating
                else st.ratings u } xs := rfl
    by_cases hxs : t ∈ xs
    · rw [step]
      exact ih _ hxs
    · have hx : t = x := by
        rcases List.mem_cons.mp h with h1 | h1
        · exact h1
        · exact absurd h1 hxs
      rw [step, initialize_ratings_not_mem xs _ t hxs]
      simp [hx]

/-- C2(counterexample) — the claim "initialization never overwrites" is false
for the team store: after a game moves team `A` off the base rating, calling
`initialize_ratings ["A"]` resets `A` to the base, changing its rating. -/
theorem C2_counterexample :
    ((((defaultTeamStore.initialize_ratings ["A", "B"]).update_ratings
        "A" "B" 27 24 2024 1 false).1.initialize_ratings ["A"]).get_rating "A")
      ≠ (((defaultTeamStore.initialize_ratings ["A", "B"]).update_ratings
        "A" "B" 27 24 2024 1 false).1.get_rating "A") := by
  have hlog : 0 < Real.log 4 := Real.log_pos (by norm_num)
  have hE : expected_score (1500 + 50) 1500 < 1 := expected_score_lt_one _ _
  have hcfg := initialize_ratings_config ["A", "B"] defaultTeamStore
  have hi : (defaultTeamStore.initialize_ratings ["A", "B"]).initial_rating = 1500 := by
    rw [hcfg.1]; rfl
  have hk : (defaultTeamStore.initialize_ratings ["A", "B"]).k_factor = 20 := by
    rw [hcfg.2.1]; rfl
  have hh : (defaultTeamStore.initialize_ratings ["A", "B"]).home_advantage = 50 := by
    rw [hcfg.2.2.1]; rfl
  have h1 : (defaultTeamStore.initialize_ratings ["A", "B"]).ratings "A" = some 1500 := by
    rw [initialize_ratings_mem ["A", "B"] defaultTeamStore "A" (by simp)]; rfl
  have h2 : (defaultTeamStore.initialize_ratings ["A", "B"]).ratings "B" = some 1500 := by
    rw [initialize_ratings_mem ["A", "B"] defaultTeamStore "B" (by simp)]; rfl
  have hs2 : (((defaultTeamStore.initialize_ratings ["A", "B"]).update_ratings
      "A" "B" 27 24 2024 1 false).1).ratings "A"
      = some (1500 + 20 * mov_multiplier 3 * 1 * (1 - expected_score (1500 + 50) 1500)) := by
    simp only [TeamElo.update_ratings, TeamElo.get_rating, h1, h2, hk, hh]
    norm_num
    exact fun h => absurd h (by decide)
  have hs2i : (((defaultTeamStore.initialize_ratings ["A", "B"]).update_ratings
      "A" "B" 27 24 2024 1 false).1).initial_rating = 1500 := by
    simp only [TeamElo.update_ratings]
    exact hi
  have hlhs : ((((defaultTeamStore.initialize_ratings ["A", "B"]).update_ratings
      "A" "B" 27 24 2024 1 false).1.initialize_ratings ["A"]).get_rating "A") = 1500 := by
    unfold TeamElo.get_rating
    rw [initialize_ratings_mem ["A"] _ "A" (by simp), hs2i]
    rfl
  have hrhs : (((defaultTeamStore.initialize_ratings ["A", "B"]).update_ratings
      "A" "B" 27 24 2024 1 false).1.get_rating "A")
      = 1500 + 20 * mov_multiplier 3 * 1 * (1 - expected_score (1500 + 50) 1500) := by
    unfold TeamElo.get_rating
    rw [hs2]
    rfl
  rw [hlhs, hrhs]
  have hm : mov_multiplier 3 = Real.log 4 := by
    unfold mov_multiplier
    norm_num
  rw [hm]
  intro hcontra
  nlinarith [mul_pos hlog (show (0:ℝ) < 1 - expected_score (1500 + 50) 1500 by linarith)]

/-- C2(amended) — `initialize_player` is idempotent and never overwrites: when
the player already has a rating the whole call is a no-op (rating, metadata
and ledger untouched). The team-side `initialize_ratings`, by contrast,
unconditionally writes the base rating into every listed team, overwriting
any existing rating. -/
theorem C2_initialize_semantics :
    (∀ (st : PlayerElo) (p pos : String) (r : ℝ),
      st.ratings p = some r → st.initialize_player p pos = st) ∧
    (∀ (st : TeamElo) (teams : List String) (t : String),
      t ∈ teams → (st.initialize_ratings teams).get_rating t = st.initial_rating) := by
  constructor
  · intro st p pos r hr
    unfold PlayerElo.initialize_player
    rw [hr]
  · intro st teams t ht
    unfold TeamElo.get_rating
    rw [initialize_ratings_mem teams st t ht]
    rfl

/-- Witness for C2(amended): a second `initialize_player` call on the already
initialized-and-updated player `X` changes nothing; and `initialize_ratings`
writes the base rating for a listed team. -/
theorem C2_initialize_semantics_witness :
    samplePlayerStore.initialize_player "X" "RB" = samplePlayerStore ∧
    (defaultTeamStore.initialize_ratings ["A"]).get_rating "A"
      = defaultTeamStore.initial_rating :=
  ⟨C2_initialize_semantics.1 samplePlayerStore "X" "RB" 1080 (by simp [samplePlayerStore]),
   C2_initialize_semantics.2 defaultTeamStore ["A"] "A" (by simp)⟩

/-- C3(counterexample) — the claim "the effective K-factor equals the
position-specific base K-factor multiplied by snap_share, for every player
id" fails for a player that was never initialized: `get_k_factor` returns the
flat `20.0` regardless of `snap_share`, so at `snap_share = 0.5` the returned
K (20) is not the full-participation K (20) times `0.5` (10). -/
theorem C3_counterexample :
    freshPlayerStore.get_k_factor "X" 0.5
      ≠ freshPlayerStore.get_k_factor "X" 1 * 0.5 := by
  norm_num [freshPlayerStore, PlayerElo.mk0, PlayerElo.get_k_factor]

/-- C3(amended) — for every player present in `player_info`, the effective
K-factor is the position's base K-factor (default 20) times `snap_share`, and
`update_rating` applies exactly `K_position * snap_share * (performance - E)`
with `E` the logistic expectation against the opponent strength. A player
absent from `player_info` instead gets the flat K of `20.0`, ignoring
`snap_share`. -/
theorem C3_k_factor_scaling (st : PlayerElo) (p : String) (info : PlayerInfo)
    (snap_share opponent_strength performance_score : ℝ) (season week : ℤ)
    (hp : st.player_info p = some info) :
    st.get_k_factor p snap_share = (st.k_factors info.position).getD 20 * snap_share ∧
    (st.update_rating p opponent_strength performance_score snap_share season week).2
      = st.get_rating p
        + (st.k_factors info.position).getD 20 * snap_share
          * (performance_score
             - 1 / (1 + (10 : ℝ) ^ ((opponent_strength - st.get_rating p) / 400))) := by
  constructor
  · unfold PlayerElo.get_k_factor
    rw [hp]
  · unfold PlayerElo.update_rating PlayerElo.get_k_factor
    rw [hp]

/-- Witness for C3(amended): for the initialized QB `X` (base K 32) at
`snap_share = 0.5` the effective K is `32 * 0.5 = 16`. -/
theorem C3_k_factor_scaling_witness :
    samplePlayerStore.player_info "X" = some ⟨"QB", 1, some (2024, 1)⟩ ∧
    samplePlayerStore.get_k_factor "X" 0.5 = 16 := by
  have h := (C3_k_factor_scaling samplePlayerStore "X" ⟨"QB", 1, some (2024, 1)⟩
    0.5 1000 0.7 2024 2 (by simp [samplePlayerStore])).1
  refine ⟨by simp [samplePlayerStore], ?_⟩
  rw [h]
  norm_num [samplePlayerStore, default_k_factors]

/-- C7 — for chronological queries (`last_season ≤ current_season`),
`regress_inactive_players` computes the elapsed weeks as
`(current_season − last_season)*18 + current_week − last_week`, applies the
reversion toward the base rating exactly when that is `≥ 4`, leaves the
rating unchanged when it is `< 4`, and leaves players never updated
(`last_update_week = none`) completely untouched. -/
theorem C7_regress_inactive (st : PlayerElo) (cs cw : ℤ) (p : String) :
    (∀ (info : PlayerInfo) (ls lw : ℤ) (r : ℝ),
      st.player_info p = some info →
      info.last_update_week = some (ls, lw) →
      ls ≤ cs →
      st.ratings p = some r →
      (st.regress_inactive_players cs cw).ratings p
        = some (if 4 ≤ (cs - ls) * 18 + cw - lw
            then r * (1 - st.reversion_factor) + st.initial_rating * st.reversion_factor
            else r)) ∧
    (∀ info : PlayerInfo,
      st.player_info p = some info →
      info.last_update_week = none →
      (st.regress_inactive_players cs cw).ratings p = st.ratings p) := by
  constructor
  · intro info ls lw r hp hl hls hr
    have hw : (if cs > ls then (cs - ls) * 18 + cw - lw else cw - lw)
        = (cs - ls) * 18 + cw - lw := by
      rcases lt_or_eq_of_le hls with h | h
      · rw [if_pos h]
      · rw [if_neg (by omega)]
        omega
    unfold PlayerElo.regress_inactive_players
    simp only [hp, hl, hr, hw]
    split_ifs with h4
    · simp
    · rfl
  · intro info hp hl
    unfold PlayerElo.regress_inactive_players
    simp only [hp, hl]

/-- Witness for C7: player `X`, last updated week 1 of season 2024, queried
at week 6 of season 2024 (5 weeks elapsed, `≥ 4`): its rating 1080 regresses
to `1080*0.75 + 1000*0.25 = 1060`. -/
theorem C7_regress_inactive_witness :
    (samplePlayerStore.regress_inactive_players 2024 6).ratings "X" = some 1060 := by
  have h := (C7_regress_inactive samplePlayerStore 2024 6 "X").1
    ⟨"QB", 1, some (2024, 1)⟩ 2024 1 1080 (by simp [samplePlayerStore]) rfl
    (by norm_num) (by simp [samplePlayerStore])
  rw [h]
  norm_num [samplePlayerStore]

/-- C10 — calling `update_rating` for a player never initialized: the player
receives a rating (built with the flat K of 20 and base-rating expectation)
but no metadata entry; the appended ledger record carries position
`"UNKNOWN"`; a subsequent `initialize_player` call changes nothing at all;
and `regress_inactive_players` never touches that player's rating, for any
current season/week. -/
theorem C10_uninitialized_player_update (st : PlayerElo) (p : String)
    (opponent_strength performance_score snap_share : ℝ) (season week : ℤ)
    (hr : st.ratings p = none) (hi : st.player_info p = none) :
    ((st.update_rating p opponent_strength performance_score snap_share season week).1).ratings p
      = some (st.initial_rating
          + 20 * (performance_score
              - 1 / (1 + (10 : ℝ) ^ ((opponent_strength - st.initial_rating) / 400)))) ∧
    ((st.update_rating p opponent_strength performance_score snap_share season week).1).player_info p
      = none ∧
    ((st.update_rating p opponent_strength performance_score snap_share season week).1).history
      = st.history ++ [⟨season, week, p, "UNKNOWN",
          st.initial_rating
            + 20 * (performance_score
                - 1 / (1 + (10 : ℝ) ^ ((opponent_strength - st.initial_rating) / 400)))⟩] ∧
    (∀ pos : String,
      ((st.update_rating p opponent_strength performance_score snap_share season week).1).initialize_player p pos
        = (st.update_rating p opponent_strength performance_score snap_share season week).1) ∧
    (∀ cs cw : ℤ,
      (((st.update_rating p opponent_strength performance_score snap_share season week).1).regress_inactive_players cs cw).ratings p
        = ((st.update_rating p opponent_strength performance_score snap_share season week).1).ratings p) := by
  have hg : st.get_rating p = st.initial_rating := by
    unfold PlayerElo.get_rating
    rw [hr]
    rfl
  have hk : st.get_k_factor p snap_share = 20 := by
    unfold PlayerElo.get_k_factor
    rw [hi]
  refine ⟨?_, ?_, ?_, ?_, ?_⟩
  · unfold PlayerElo.update_rating
    rw [hi]
    simp [hg, hk, PlayerElo.get_k_factor, hi]
  · unfold PlayerElo.update_rating
    rw [hi]
    simpa using hi
  · unfold PlayerElo.update_rating
    rw [hi]
    simp [hg, hk, PlayerElo.get_k_factor, hi]
  · intro pos
    unfold PlayerElo.initialize_player
    unfold PlayerElo.update_rating
    rw [hi]
    simp
  · intro cs cw
    unfold PlayerElo.regress_inactive_players
    unfold PlayerElo.update_rating
    simp [hi]

/-- Witness for C10: updating the never-initialized player `X` at
`opponent_strength = 1000`, `performance = 1`, `snap_share = 0.5` yields
rating `1000 + 20 * (1 - 1/2) = 1010` (flat K 20, expectation 1/2) and
creates no metadata entry. -/
theorem C10_uninitialized_player_update_witness :
    ((freshPlayerStore.update_rating "X" 1000 1 0.5 2024 1).1).ratings "X" = some 1010 ∧
    ((freshPlayerStore.update_rating "X" 1000 1 0.5 2024 1).1).player_info "X" = none := by
  have h := C10_uninitialized_player_update freshPlayerStore "X" 1000 1 0.5 2024 1
    (by simp [freshPlayerStore, PlayerElo.mk0]) (by simp [freshPlayerStore, PlayerElo.mk0])
  refine ⟨?_, h.2.1⟩
  rw [h.1]
  norm_num [freshPlayerStore, PlayerElo.mk0, Real.rpow_zero]

/-- Folding "skip or accumulate" over a list is the sum of the per-element
contributions. -/
lemma foldl_cond_add_eq_sum {α : Type} (l : List α) (p : α → Prop) [DecidablePred p]
    (f : α → ℝ) (a : ℝ) :
    l.foldl (fun t x => if p x then t else t + f x) a
      = a + (l.map (fun x => if p x then 0 else f x)).sum := by
  induction l generalizing a with
  | nil => simp
  | cons x xs ih =>
    simp only [List.foldl_cons, List.map_cons, List.sum_cons]
    rw [ih]
    split_ifs <;> ring

/-- C4(counterexample) — the claim's `len*BASE` subtraction disagrees with the
code: for a roster of two unseen quarterbacks at full snap share the claim's
formula yields 0 while `compute_team_adjustment` (which subtracts the base
rating once per position) yields 25. -/
theorem C4_counterexample :
    spec_team_adjustment_claim freshPlayerStore sampleRosterTwoQB
      ≠ freshPlayerStore.compute_team_adjustment sampleRosterTwoQB := by
  have hl : spec_team_adjustment_claim freshPlayerStore sampleRosterTwoQB = 0 := by
    simp +decide only [spec_team_adjustment_claim, position_weights, sampleRosterTwoQB,
      freshPlayerStore, PlayerElo.mk0, PlayerElo.get_rating, List.filter_cons,
      List.filter_nil, List.map_cons, List.map_nil, List.sum_cons, List.sum_nil,
      List.length_cons, List.length_nil, Option.getD_none]
    norm_num
  have hr : freshPlayerStore.compute_team_adjustment sampleRosterTwoQB = 25 := by
    simp +decide only [PlayerElo.compute_team_adjustment, position_weights, sampleRosterTwoQB,
      freshPlayerStore, PlayerElo.mk0, PlayerElo.get_rating, List.filter_cons,
      List.filter_nil, List.map_cons, List.map_nil, List.sum_cons, List.sum_nil,
      List.length_cons, List.length_nil, List.foldl_cons, List.foldl_nil, Option.getD_none]
    norm_num
  rw [hl, hr]
  norm_num

/-- C4(amended) — `compute_team_adjustment` equals the spec formula with the
correction the code forces (the base rating is subtracted once per
position with a nonempty roster slice, not `len` times), and the returned
scalar always lies in `[-100, 100]`. -/
theorem C4_team_adjustment (st : PlayerElo) (roster : List RosterRow) :
    st.compute_team_adjustment roster = spec_team_adjustment_amended st roster ∧
    -100 ≤ st.compute_team_adjustment roster ∧
    st.compute_team_adjustment roster ≤ 100 := by
  refine ⟨?_, le_max_left _ _, max_le (by norm_num) (min_le_right _ _)⟩
  unfold PlayerElo.compute_team_adjustment spec_team_adjustment_amended
  rw [foldl_cond_add_eq_sum position_weights
    (fun pw => (roster.filter (fun row => row.position = pw.1)).length = 0)
    (fun pw => ((((roster.filter (fun row => row.position = pw.1)).map
        (fun row => st.get_rating row.player_id * row.snap_share)).sum
      - st.initial_rating) * pw.2)) 0]
  norm_num

/-- C6(amended) — a game with a missing score never appends to the ledger and
never triggers a rating update; the store is left entirely unchanged
*provided* the game does not open a new season (the season-boundary
`regress_to_mean` of the loop fires from the game's season field even when
its scores are missing). -/
theorem C6_missing_score_skip (st : FeedState) (g : GameRow)
    (h : g.home_score = none ∨ g.away_score = none) :
    (stepGame st g).elo.history = st.elo.history ∧
    ((st.current_season = none ∨ st.current_season = some g.season) →
      (stepGame st g).elo = st.elo) := by
  have helo : (stepGame st g).elo =
      (match st.current_season with
        | none => st.elo
        | some cs => if g.season ≠ cs then st.elo.regress_to_mean else st.elo) := by
    unfold stepGame
    rcases h with h | h
    · rw [h]
    · rw [h]
      cases g.home_score <;> rfl
  constructor
  · rw [helo]
    cases hcs : st.current_season with
    | none => rfl
    | some cs =>
      by_cases hne : g.season ≠ cs
      · simp only [if_pos hne, TeamElo.regress_to_mean]
      · simp only [if_neg hne]
  · intro h2
    rw [helo]
    rcases h2 with h2 | h2
    · rw [h2]
    · rw [h2]
      simp

/-- Witness for C6(amended): from the initial loop state, processing the
missing-score game leaves the store untouched. -/
theorem C6_missing_score_skip_witness :
    (stepGame initialFeed sampleGameMissing).elo = initialFeed.elo :=
  (C6_missing_score_skip initialFeed sampleGameMissing (Or.inl rfl)).2 (Or.inl rfl)

/-- C6(counterexample) — the claim "processing a missing-score game is a
complete no-op: no team's rating changes" is false when the missing-score
game opens a new season: after the scored 2023 game, processing the 2024
missing-score game regresses every rating, changing team `A`'s rating. -/
theorem C6_counterexample :
    (stepGame (stepGame initialFeed sampleGameScored) sampleGameMissing).elo.get_rating "A"
      ≠ (stepGame initialFeed sampleGameScored).elo.get_rating "A" := by
  have hlog : 0 < Real.log 4 := Real.log_pos (by norm_num)
  have hE : expected_score (1500 + 50) 1500 < 1 := expected_score_lt_one _ _
  have hs1 : (stepGame initialFeed sampleGameScored).elo.ratings "A"
      = some (1500 + 20 * mov_multiplier 3 * 1 * (1 - expected_score (1500 + 50) 1500)) := by
    unfold stepGame initialFeed sampleGameScored
    simp only [TeamElo.update_ratings, TeamElo.get_rating, defaultTeamStore, TeamElo.mk0]
    norm_num
    simp +decide
  have hcs : (stepGame initialFeed sampleGameScored).current_season = some 2023 := rfl
  have hrev : (stepGame initialFeed sampleGameScored).elo.reversion_factor = 0.33 := rfl
  have hini : (stepGame initialFeed sampleGameScored).elo.initial_rating = 1500 := rfl
  have hs2 : (stepGame (stepGame initialFeed sampleGameScored) sampleGameMissing).elo.ratings "A"
      = some ((1500 + 20 * mov_multiplier 3 * 1 * (1 - expected_score (1500 + 50) 1500))
          * (1 - 0.33) + 1500 * 0.33) := by
    have hstep : stepGame (stepGame initialFeed sampleGameScored) sampleGameMissing
        = ⟨(stepGame initialFeed sampleGameScored).elo.regress_to_mean, some 2024⟩ := by
      generalize hgen : stepGame initialFeed sampleGameScored = s1 at hcs ⊢
      unfold stepGame
      rw [hcs]
      norm_num [sampleGameMissing]
    rw [hstep]
    simp only [TeamElo.regress_to_mean]
    rw [hs1, hrev, hini]
    rfl
  have hgr2 : (stepGame (stepGame initialFeed sampleGameScored) sampleGameMissing).elo.get_rating "A"
      = (1500 + 20 * mov_multiplier 3 * 1 * (1 - expected_score (1500 + 50) 1500))
        * (1 - 0.33) + 1500 * 0.33 := by
    unfold TeamElo.get_rating
    rw [hs2]
    rfl
  have hgr1 : (stepGame initialFeed sampleGameScored).elo.get_rating "A"
      = 1500 + 20 * mov_multiplier 3 * 1 * (1 - expected_score (1500 + 50) 1500) := by
    unfold TeamElo.get_rating
    rw [hs1]
    rfl
  rw [hgr1, hgr2]
  have hm : mov_multiplier 3 = Real.log 4 := by
    unfold mov_multiplier
    norm_num
  rw [hm]
  intro hcontra
  have h1E : (0:ℝ) < 1 - expected_score (1500 + 50) 1500 := by linarith
  have ha : (0:ℝ) < 20 * Real.log 4 * 1 * (1 - expected_score (1500 + 50) 1500) :=
    mul_pos (mul_pos (mul_pos (by norm_num) hlog) one_pos) h1E
  ring_nf at hcontra ha
  linarith

/-- `lastTeamRecord` over an appended ledger folds the new records onto the
old result. -/
lemma lastTeamRecord_append (h1 h2 : List TeamRecord) (t : String) :
    lastTeamRecord (h1 ++ h2) t
      = h2.foldl (fun acc r => if r.team_id = t then some r else acc)
          (lastTeamRecord h1 t) := by
  unfold lastTeamRecord
  rw [List.foldl_append]

/-- A store with an empty ledger satisfies the ledger/ratings invariant. -/
lemma teamHistInv_empty (s0 : TeamElo) (h : s0.history = []) : teamHistInv s0 := by
  intro t r hlast
  rw [h] at hlast
  simp [lastTeamRecord] at hlast

/-- `update_ratings` preserves the ledger/ratings invariant: it appends the
home record then the away record and writes the dict in the same order, so
the last record per team always matches the dict. -/
lemma teamHistInv_update (st : TeamElo) (hinv : teamHistInv st)
    (home away : String) (hs aw sn wk : ℤ) (pf : Bool) :
    teamHistInv ((st.update_ratings home away hs aw sn wk pf).1) := by
  intro t r hlast
  simp only [TeamElo.update_ratings] at hlast ⊢
  rw [lastTeamRecord_append] at hlast
  simp only [List.foldl_cons, List.foldl_nil] at hlast
  by_cases hat : away = t
  · rw [if_pos hat] at hlast
    obtain rfl := Option.some.inj hlast
    rw [if_pos hat.symm]
  · rw [if_neg hat] at hlast
    by_cases hht : home = t
    · rw [if_pos hht] at hlast
      obtain rfl := Option.some.inj hlast
      rw [if_neg (fun h => hat h.symm), if_pos hht.symm]
    · rw [if_neg hht] at hlast
      rw [if_neg (fun h => hat h.symm), if_neg (fun h => hht h.symm)]
      exact hinv t r hlast

/-- The invariant holds after any sequence of `update_ratings` calls. -/
lemma teamHistInv_applyUpdates (s0 : TeamElo) (h : teamHistInv s0)
    (ops : List TeamUpd) : teamHistInv (applyTeamUpdates s0 ops) := by
  induction ops generalizing s0 with
  | nil => exact h
  | cons op ops ih => exact ih _ (teamHistInv_update s0 h _ _ _ _ _ _ _)

/-- Player analogue of `lastTeamRecord_append`. -/
lemma lastPlayerRecord_append (h1 h2 : List PlayerRecord) (p : String) :
    lastPlayerRecord (h1 ++ h2) p
      = h2.foldl (fun acc r => if r.player_id = p then some r else acc)
          (lastPlayerRecord h1 p) := by
  unfold lastPlayerRecord
  rw [List.foldl_append]

/-- A player store with an empty ledger satisfies the invariant. -/
lemma playerHistInv_empty (s0 : PlayerElo) (h : s0.history = []) : playerHistInv s0 := by
  intro p r hlast
  rw [h] at hlast
  simp [lastPlayerRecord] at hlast

/-- `update_rating` preserves the ledger/ratings invariant. -/
lemma playerHistInv_update (st : PlayerElo) (hinv : playerHistInv st)
    (p : String) (os perf ss : ℝ) (sn wk : ℤ) :
    playerHistInv ((st.update_rating p os perf ss sn wk).1) := by
  intro q r hlast
  simp only [PlayerElo.update_rating] at hlast ⊢
  rw [lastPlayerRecord_append] at hlast
  simp only [List.foldl_cons, List.foldl_nil] at hlast
  by_cases hpq : p = q
  · rw [if_pos hpq] at hlast
    obtain rfl := Option.some.inj hlast
    rw [if_pos hpq.symm]
  · rw [if_neg hpq] at hlast
    rw [if_neg (fun h => hpq h.symm)]
    exact hinv q r hlast

/-- The invariant holds after any sequence of `update_rating` calls. -/
lemma playerHistInv_applyUpdates (s0 : PlayerElo) (h : playerHistInv s0)
    (ops : List PlayerUpd) : playerHistInv (applyPlayerUpdates s0 ops) := by
  induction ops generalizing s0 with
  | nil => exact h
  | cons op ops ih => exact ih _ (playerHistInv_update s0 h _ _ _ _ _ _)

/-- C5 — restore fidelity, for both stores: start any store with an empty
ledger, apply any sequence of updates, persist the ledger, discard the live
store and reload a fresh store from the ledger via the latest-record-per-
entity reconstruction; then `get_rating` agrees with the live store on every
entity the ledger ever touched. -/
theorem C5_restore_fidelity :
    (∀ (s0 : TeamElo) (ops : List TeamUpd) (t : String),
      s0.history = [] →
      (lastTeamRecord (applyTeamUpdates s0 ops).history t).isSome →
      ((TeamElo.mk0 s0.initial_rating s0.k_factor s0.home_advantage
          s0.reversion_factor).load_history
        (applyTeamUpdates s0 ops).history).get_rating t
        = (applyTeamUpdates s0 ops).get_rating t) ∧
    (∀ (s0 : PlayerElo) (ops : List PlayerUpd) (p : String),
      s0.history = [] →
      (lastPlayerRecord (applyPlayerUpdates s0 ops).history p).isSome →
      ((PlayerElo.mk0 s0.initial_rating s0.k_factors
          s0.reversion_factor).load_history
        (applyPlayerUpdates s0 ops).history).get_rating p
        = (applyPlayerUpdates s0 ops).get_rating p) := by
  constructor
  · intro s0 ops t h0 hsome
    obtain ⟨r, hr⟩ := Option.isSome_iff_exists.mp hsome
    have hlive := teamHistInv_applyUpdates s0 (teamHistInv_empty s0 h0) ops t r hr
    simp [TeamElo.load_history, TeamElo.get_rating, hr, hlive]
  · intro s0 ops p h0 hsome
    obtain ⟨r, hr⟩ := Option.isSome_iff_exists.mp hsome
    have hlive := playerHistInv_applyUpdates s0 (playerHistInv_empty s0 h0) ops p r hr
    simp [PlayerElo.load_history, PlayerElo.get_rating, hr, hlive]

/-- Witness for C5: one concrete update per store; the reloaded fresh stores
report the live ratings for the touched entities. -/
theorem C5_restore_fidelity_witness :
    ((TeamElo.mk0 defaultTeamStore.initial_rating defaultTeamStore.k_factor
        defaultTeamStore.home_advantage defaultTeamStore.reversion_factor).load_history
      (applyTeamUpdates defaultTeamStore [⟨"A", "B", 27, 24, 2024, 1, false⟩]).history).get_rating "A"
      = (applyTeamUpdates defaultTeamStore [⟨"A", "B", 27, 24, 2024, 1, false⟩]).get_rating "A" ∧
    ((PlayerElo.mk0 freshPlayerStore.initial_rating freshPlayerStore.k_factors
        freshPlayerStore.reversion_factor).load_history
      (applyPlayerUpdates freshPlayerStore [⟨"X", 1000, 0.7, 1, 2024, 1⟩]).history).get_rating "X"
      = (applyPlayerUpdates freshPlayerStore [⟨"X", 1000, 0.7, 1, 2024, 1⟩]).get_rating "X" :=
  ⟨C5_restore_fidelity.1 defaultTeamStore _ "A" rfl (by
      simp +decide [applyTeamUpdates, TeamElo.update_ratings, lastTeamRecord,
        defaultTeamStore, TeamElo.mk0]),
   C5_restore_fidelity.2 freshPlayerStore _ "X" rfl (by
      simp +decide [applyPlayerUpdates, PlayerElo.update_rating, lastPlayerRecord,
        freshPlayerStore, PlayerElo.mk0])⟩

end NFLIQ
